import Mathlib

/-!
Shallow embedding of the iptv-org ingestion-and-scoring pipeline:
the playlist parser (src/lib/iptv/m3u-parser.ts), the quality scorer
(src/lib/iptv/metrics.ts), the source reconciler
(src/lib/iptv/source-processor.ts together with the store's
upsert-by-id), and the stream prober / manifest inspector
(StreamTester in m3u-parser.ts).

JavaScript strings are modelled as List Char; the string operations
the code uses (split, trim, includes, startsWith, regex matches) are
embedded with JavaScript semantics.  Machine arithmetic of the SHA-1
hash is Nat with explicit reduction mod 2^32.  JavaScript numbers are
modelled as exact rationals; Math.round is floor (x + 1/2).
-/

/-! ### JavaScript string primitives -/

/-- Whitespace as recognised by JavaScript String.prototype.trim. -/
def isJsWhitespace (c : Char) : Bool :=
  c = ' ' ∨ c = '\t' ∨ c = '\n' ∨ c = '\r' ∨ c.toNat = 11 ∨ c.toNat = 12 ∨
  c.toNat = 0xA0 ∨ c.toNat = 0x1680 ∨ (0x2000 ≤ c.toNat ∧ c.toNat ≤ 0x200A) ∨
  c.toNat = 0x2028 ∨ c.toNat = 0x2029 ∨ c.toNat = 0x202F ∨ c.toNat = 0x205F ∨
  c.toNat = 0x3000 ∨ c.toNat = 0xFEFF

/-- JavaScript s.trim() on character lists. -/
def jsTrim (cs : List Char) : List Char :=
  ((cs.dropWhile isJsWhitespace).reverse.dropWhile isJsWhitespace).reverse

/-- JavaScript s.trim() on strings. -/
def jsTrimStr (s : String) : String :=
  String.mk (jsTrim s.data)

/-- JavaScript s.split(sep) for a one-character separator: every occurrence
separates, empty segments are kept, and the empty string splits to [""]. -/
def splitOnChar (sep : Char) : List Char → List (List Char)
  | [] => [[]]
  | c :: cs =>
    if c = sep then [] :: splitOnChar sep cs
    else
      match splitOnChar sep cs with
      | [] => [[c]]
      | h :: t => (c :: h) :: t

/-- JavaScript content.split(/\r?\n/): a \r\n pair or a lone \n separates;
a \r not followed by \n stays inside the line. -/
def splitLinesJs : List Char → List (List Char)
  | [] => [[]]
  | '\r' :: '\n' :: cs => [] :: splitLinesJs cs
  | '\n' :: cs => [] :: splitLinesJs cs
  | c :: cs =>
    match splitLinesJs cs with
    | [] => [[c]]
    | h :: t => (c :: h) :: t

/-- JavaScript s.includes(pat): substring containment. -/
def jsIncludes (pat : List Char) : List Char → Bool
  | [] => pat.isPrefixOf ([] : List Char)
  | c :: cs => pat.isPrefixOf (c :: cs) || jsIncludes pat cs

/-- Numeric value of a list of decimal digit characters
(JavaScript parseInt(-, 10) restricted to all-digit captures). -/
def parseDigits (ds : List Char) : Nat :=
  ds.foldl (fun n c => 10 * n + (c.toNat - 48)) 0

/-- Removes the first occurrence of a character
(JavaScript s.replace(c, '') for a one-character pattern). -/
def removeFirstChar (t : Char) : List Char → List Char
  | [] => []
  | c :: cs => if c = t then cs else c :: removeFirstChar t cs

/-! ### SHA-1 (node:crypto createHash('sha1'), hex digest)

Implemented over byte lists (Nat < 256) with 32-bit words as Nat
reduced mod 2^32. -/

/-- Reduce to a 32-bit word. -/
def w32 (n : Nat) : Nat := n % 4294967296

/-- Rotate a 32-bit word left by k bits. -/
def rotl (k n : Nat) : Nat :=
  (n % 2 ^ (32 - k)) * 2 ^ k + n / 2 ^ (32 - k)

/-- UTF-8 bytes of a character list (node Buffer encoding of a JS string). -/
def utf8Bytes : List Char → List Nat
  | [] => []
  | c :: cs =>
    let n := c.toNat
    (if n < 0x80 then [n]
     else if n < 0x800 then [0xC0 + n / 64, 0x80 + n % 64]
     else if n < 0x10000 then
       [0xE0 + n / 4096, 0x80 + n / 64 % 64, 0x80 + n % 64]
     else
       [0xF0 + n / 262144, 0x80 + n / 4096 % 64, 0x80 + n / 64 % 64,
        0x80 + n % 64]) ++ utf8Bytes cs

/-- Big-endian byte expansion of a value to a fixed width. -/
def beBytes : Nat → Nat → List Nat
  | 0, _ => []
  | w + 1, v => beBytes w (v / 256) ++ [v % 256]

/-- SHA-1 message padding: 0x80, zeros to 56 mod 64, 64-bit bit length. -/
def sha1Pad (msg : List Nat) : List Nat :=
  msg ++ [0x80] ++ List.replicate ((119 - msg.length % 64) % 64) 0 ++
    beBytes 8 (8 * msg.length)

/-- Helper of chunks64, structurally recursive on a fuel bound: every
step on a nonempty list drops at least one byte, so a fuel of the list
length is never exhausted. -/
def chunks64Aux : Nat → List Nat → List (List Nat)
  | 0, _ => []
  | _, [] => []
  | fuel + 1, b :: bs =>
    (b :: bs).take 64 :: chunks64Aux fuel ((b :: bs).drop 64)

/-- Split a byte list into 64-byte chunks. -/
def chunks64 (l : List Nat) : List (List Nat) :=
  chunks64Aux l.length l

/-- Big-endian 32-bit words of a 64-byte chunk. -/
def bytesToWords : List Nat → List Nat
  | b0 :: b1 :: b2 :: b3 :: rest =>
    (((b0 * 256 + b1) * 256 + b2) * 256 + b3) :: bytesToWords rest
  | _ => []

/-- Message-schedule extension: appends the given number of further words,
each rotl 1 of the xor of the words 3, 8, 14 and 16 places back. -/
def sha1Extend (ws : List Nat) : Nat → List Nat
  | 0 => ws
  | k + 1 =>
    sha1Extend
      (ws ++ [rotl 1 (((ws.getD (ws.length - 3) 0 ^^^ ws.getD (ws.length - 8) 0) ^^^
        ws.getD (ws.length - 14) 0) ^^^ ws.getD (ws.length - 16) 0)]) k

/-- Round function of SHA-1. -/
def sha1F (i b c d : Nat) : Nat :=
  if i < 20 then (b &&& c) ||| ((b ^^^ 0xFFFFFFFF) &&& d)
  else if i < 40 then (b ^^^ c) ^^^ d
  else if i < 60 then ((b &&& c) ||| (b &&& d)) ||| (c &&& d)
  else (b ^^^ c) ^^^ d

/-- Round constant of SHA-1. -/
def sha1K (i : Nat) : Nat :=
  if i < 20 then 0x5A827999
  else if i < 40 then 0x6ED9EBA1
  else if i < 60 then 0x8F1BBCDC
  else 0xCA62C1D6

/-- Compression of one 64-byte chunk into the running state. -/
def sha1Compress (h : Nat × Nat × Nat × Nat × Nat) (chunk : List Nat) :
    Nat × Nat × Nat × Nat × Nat :=
  let ws := sha1Extend (bytesToWords chunk) 64
  let st := (List.range 80).foldl
    (fun (st : Nat × Nat × Nat × Nat × Nat) i =>
      let (a, b, c, d, e) := st
      let temp := w32 (rotl 5 a + sha1F i b c d + e + sha1K i + ws.getD i 0)
      (temp, a, rotl 30 b, c, d))
    (h.1, h.2.1, h.2.2.1, h.2.2.2.1, h.2.2.2.2)
  (w32 (h.1 + st.1), w32 (h.2.1 + st.2.1), w32 (h.2.2.1 + st.2.2.1),
   w32 (h.2.2.2.1 + st.2.2.2.1), w32 (h.2.2.2.2 + st.2.2.2.2))

/-- SHA-1 digest (20 bytes) of a byte list. -/
def sha1Digest (msg : List Nat) : List Nat :=
  let st := (chunks64 (sha1Pad msg)).foldl sha1Compress
    (0x67452301, 0xEFCDAB89, 0x98BADCFE, 0x10325476, 0xC3D2E1F0)
  beBytes 4 st.1 ++ beBytes 4 st.2.1 ++ beBytes 4 st.2.2.1 ++
    beBytes 4 st.2.2.2.1 ++ beBytes 4 st.2.2.2.2

/-- Lower-case hex digit of a value below 16. -/
def hexDigit (n : Nat) : Char :=
  if n < 10 then Char.ofNat (48 + n) else Char.ofNat (87 + n)

/-- Lower-case hex string of a byte list. -/
def bytesToHex (bs : List Nat) : List Char :=
  bs.foldr (fun b acc => hexDigit (b / 16) :: hexDigit (b % 16) :: acc) []

/-- crypto.createHash('sha1').update(s).digest('hex'). -/
def sha1Hex (s : String) : String :=
  String.mk (bytesToHex (sha1Digest (utf8Bytes s.data)))

/-! ### Data model (src/lib/types.ts) -/

/-- StreamStatus from types.ts. -/
inductive StreamStatus where
  | active
  | inactive
  | untested
deriving DecidableEq

/-- Probe outcome status of a StreamTestResult. -/
inductive TestStatus where
  | success
  | failure
deriving DecidableEq

/-- Channel record from types.ts, restricted to the fields the verified
claims read: id, name, url, qualityScore, status and source.  The metadata
fields country, category, logo, tvgId, tvgName and lastTested are carried
along by the code but inspected by none of the claims, so they are not
modelled. -/
structure Channel where
  id : String
  name : String
  url : String
  qualityScore : Nat
  status : StreamStatus
  source : String
deriving DecidableEq

/-- StreamTestResult from types.ts.  JavaScript numbers are exact
rationals; responseTimeMs is a nonnegative elapsed-milliseconds count. -/
structure StreamTestResult where
  channelId : String
  status : TestStatus
  responseTimeMs : Nat
  bitrateKbps : ℚ
  resolution : String
  testedAt : String
  region : String
deriving DecidableEq

/-- QualityMetrics from types.ts. -/
structure QualityMetrics where
  uptimePercentage : ℚ
  stabilityScore : ℚ
  videoQualityScore : ℚ
  geoAvailabilityScore : ℚ
  overallScore : ℚ
  calculatedAt : String
deriving DecidableEq

/-! ### Playlist parser (m3u-parser.ts) -/

/-- createChannelId: chn_ plus the first 16 hex characters of the SHA-1 of
the url string exactly as passed (the caller passes the raw url line). -/
def createChannelId (url : String) : String :=
  "chn_" ++ (sha1Hex url).take 16

/-- buildChannel: id from the raw url, name and url trimmed, quality 0,
status untested.  (The attribute-derived metadata fields are dropped with
the fields of Channel; they feed no claim.) -/
def buildChannel (name url source : String) : Channel :=
  { id := createChannelId url
    name := jsTrimStr name
    url := jsTrimStr url
    qualityScore := 0
    status := StreamStatus.untested
    source := source }

/-- The scanning loop of parseM3U over the split lines: a line starting
with #EXTINF: is an entry's metadata line; the immediately following line
is its url line unless that is absent, empty (falsy) or itself starts
with #; the entry's name is the last segment of the metadata line split
on commas (Array.prototype.pop), and a falsy (empty) name skips the
entry.  The index always advances by one line. -/
def parseLinesGo (source : String) : List (List Char) → List Channel
  | [] => []
  | line :: rest =>
    if "#EXTINF:".data.isPrefixOf line then
      match rest with
      | [] => parseLinesGo source rest
      | urlLine :: _ =>
        if urlLine.isEmpty || "#".data.isPrefixOf urlLine then
          parseLinesGo source rest
        else
          let nameMatch := (splitOnChar ',' line).getLastD []
          if nameMatch.isEmpty then parseLinesGo source rest
          else
            buildChannel (String.mk nameMatch) (String.mk urlLine) source ::
              parseLinesGo source rest
    else parseLinesGo source rest

/-- parseM3U: split the content on \r?\n and scan for entries.  (The
filePath argument of the source only feeds country inference, which no
claim reads, so it is not modelled.) -/
def parseM3U (content source : String) : List Channel :=
  parseLinesGo source (splitLinesJs content.data)

/-! ### Quality scorer (metrics.ts) -/

/-- average from metrics.ts: 0 for an empty list, else sum / length. -/
def average (values : List ℚ) : ℚ :=
  if values.length = 0 then 0
  else (values.foldl (fun sum value => sum + value) 0) / values.length

/-- JavaScript Math.round: floor (x + 1/2), halves toward +infinity. -/
def jsRound (q : ℚ) : ℤ := ⌊q + 1 / 2⌋

/-- Helper of distinct: keeps the elements not seen before, in order. -/
def distinctAux {α : Type} [DecidableEq α] (seen : List α) : List α → List α
  | [] => []
  | a :: rest =>
    if seen.any (fun b => b = a) then distinctAux seen rest
    else a :: distinctAux (a :: seen) rest

/-- Membership list of a JavaScript Set built from a list: the distinct
elements in first-occurrence order. -/
def distinct {α : Type} [DecidableEq α] (l : List α) : List α :=
  distinctAux [] l

/-- First match of the regex (\d+)x\d+ in a string, returning the numeric
value of the first capture group: the maximal digit run that is directly
followed by an x and a further digit, scanning left to right.  (This
capture is the component before the x — the width of a WxH string.) -/
def matchWxH : List Char → Option Nat
  | [] => none
  | c :: cs =>
    if c.isDigit then
      match (c :: cs).dropWhile Char.isDigit with
      | 'x' :: d :: _ =>
        if d.isDigit then some (parseDigits ((c :: cs).takeWhile Char.isDigit))
        else matchWxH cs
      | _ => matchWxH cs
    else matchWxH cs

/-- The successCount local of calculateQualityMetrics. -/
def successCount (results : List StreamTestResult) : Nat :=
  (results.filter (fun result => result.status = TestStatus.success)).length

/-- The uptimePercentage local of calculateQualityMetrics:
100 times the success fraction, 0 for no results. -/
def uptimePercentageOf (results : List StreamTestResult) : ℚ :=
  if results.length > 0 then ((successCount results : ℚ) / results.length) * 100
  else 0

/-- The stabilityScore local of calculateQualityMetrics:
min(100, round(average bitrate / 10000 * 100)). -/
def stabilityScoreOf (results : List StreamTestResult) : ℚ :=
  let bitrateValues := results.map (fun result => result.bitrateKbps)
  if bitrateValues.length > 0 then
    ((min 100 (jsRound (average bitrateValues / 10000 * 100)) : ℤ) : ℚ)
  else 0

/-- The maxHeight local of calculateQualityMetrics: running maximum of
the first captures of (\d+)x\d+ over the distinct resolution strings. -/
def maxHeightOf (results : List StreamTestResult) : Nat :=
  (distinct (results.map (fun result => result.resolution))).foldl
    (fun maxHeight res =>
      match matchWxH res.data with
      | some height => if height > maxHeight then height else maxHeight
      | none => maxHeight) 0

/-- The videoQualityScore local of calculateQualityMetrics:
min(100, round(maxHeight / 1080 * 100)), 0 when no resolution string
matched (or there were no results at all). -/
def videoQualityScoreOf (results : List StreamTestResult) : ℚ :=
  if (distinct (results.map (fun result => result.resolution))).length > 0 then
    if maxHeightOf results > 0 then
      ((min 100 (jsRound ((maxHeightOf results : ℚ) / 1080 * 100)) : ℤ) : ℚ)
    else 0
  else 0

/-- The geoAvailabilityScore local of calculateQualityMetrics:
min(100, round(distinct region count / 3 * 100)). -/
def geoAvailabilityScoreOf (results : List StreamTestResult) : ℚ :=
  if (distinct (results.map (fun result => result.region))).length > 0 then
    ((min 100 (jsRound
      (((distinct (results.map (fun result => result.region))).length : ℚ) / 3 * 100)) : ℤ) : ℚ)
  else 0

/-- The weighted calculatedScore local of calculateQualityMetrics, with
the fixed weights 0.4, 0.25, 0.2, 0.15. -/
def calculatedScoreOf (results : List StreamTestResult) : ℚ :=
  uptimePercentageOf results * (4 / 10) + stabilityScoreOf results * (25 / 100) +
    videoQualityScoreOf results * (2 / 10) +
    geoAvailabilityScoreOf results * (15 / 100)

/-- calculateQualityMetrics from metrics.ts.  The impure
new Date().toISOString() is the explicit argument now. -/
def calculateQualityMetrics (results : List StreamTestResult) (now : String) :
    QualityMetrics :=
  { uptimePercentage := uptimePercentageOf results
    stabilityScore := stabilityScoreOf results
    videoQualityScore := videoQualityScoreOf results
    geoAvailabilityScore := geoAvailabilityScoreOf results
    overallScore := ((jsRound (calculatedScoreOf results) : ℤ) : ℚ)
    calculatedAt := now }

/-! ### Source reconciler (source-processor.ts with the store's
upsert-by-id from the supabase adapter) -/

/-- The store collaborator's upsertChannel: idempotent upsert by id
(onConflict id) — replace the row with this id if present, insert
otherwise.  The store is modelled as the list of channel rows. -/
def upsertChannel (store : List Channel) (c : Channel) : List Channel :=
  if store.any (fun s => s.id = c.id) then
    store.map (fun s => if s.id = c.id then c else s)
  else store ++ [c]

/-- Outcome of one SourceProcessor.saveChannels run: the store after all
upserts and the three audit counts of the appended RepositoryUpdate. -/
structure SaveOutcome where
  store : List Channel
  added : Nat
  updated : Nat
  removed : Nat
deriving DecidableEq

/-- SourceProcessor.saveChannels: existing is the snapshot of stored
channels of this source (getChannelsBySource; its quality-score ordering
is irrelevant to counts and membership and is not modelled); every
incoming channel is upserted, counting it added when its id is absent
from the snapshot and updated when present with a differing url or
status; afterwards every snapshot channel whose id is not among the
incoming ids is counted removed and upserted with status forced to
inactive. -/
def saveChannels (source : String) (incomingChannels : List Channel)
    (store0 : List Channel) : SaveOutcome :=
  let existing := store0.filter (fun c => c.source = source)
  let incomingIds := incomingChannels.map (fun channel => channel.id)
  let step1 := incomingChannels.foldl
    (fun (acc : List Channel × Nat × Nat) channel =>
      let stored := existing.find? (fun item => item.id = channel.id)
      let counts : Nat × Nat :=
        match stored with
        | none => (acc.2.1 + 1, acc.2.2)
        | some s =>
          if s.url ≠ channel.url ∨ s.status ≠ channel.status then
            (acc.2.1, acc.2.2 + 1)
          else (acc.2.1, acc.2.2)
      (upsertChannel acc.1 channel, counts))
    (store0, 0, 0)
  let step2 := existing.foldl
    (fun (acc : List Channel × Nat) channel =>
      if incomingIds.contains channel.id then acc
      else
        (upsertChannel acc.1 { channel with status := StreamStatus.inactive },
         acc.2 + 1))
    (step1.1, 0)
  { store := step2.1
    added := step1.2.1
    updated := step1.2.2
    removed := step2.2 }

/-! ### Stream prober and manifest inspector (StreamTester in
m3u-parser.ts)

The network is modelled explicitly: each fetch's outcome is an input —
Except.error for a network error, timeout or any other thrown
exception, Except.ok for a delivered response.  Elapsed wall-clock time
and new Date().toISOString() are likewise inputs. -/

/-- The probe's view of the outside world: outcome of the HEAD existence
check, outcome of the manifest GET, elapsed milliseconds, and the
timestamp taken at the start of the probe. -/
structure ProbeWorld where
  headFetch : Except Unit Nat
  getFetch : Except Unit (Nat × String)
  elapsedMs : Nat
  testedAt : String

/-- StreamTestOptions from m3u-parser.ts.  The timeout only bounds the
network operations, whose outcomes are already explicit in ProbeWorld. -/
structure StreamTestOptions where
  region : Option String := none
  timeoutMs : Option Nat := none

/-- checkStreamAvailability: false on any thrown error (network failure,
abort on timeout), else true exactly for a 2xx or 3xx status. -/
def checkStreamAvailability (headFetch : Except Unit Nat) : Bool :=
  match headFetch with
  | Except.error _ => false
  | Except.ok status => decide (200 ≤ status ∧ status < 400)

/-- Case-insensitive literal match of a pattern at the head of a string
(the /i flag on a literal regex part). -/
def ciPrefix : List Char → List Char → Bool
  | [], _ => true
  | _ :: _, [] => false
  | p :: ps, c :: cs => p.toLower = c.toLower && ciPrefix ps cs

/-- First match of /BANDWIDTH=(\d+)/i: the numeric value of the digit run
directly following the case-insensitive literal BANDWIDTH=, scanning left
to right. -/
def matchBandwidth : List Char → Option Nat
  | [] => none
  | c :: cs =>
    let here := c :: cs
    if ciPrefix "bandwidth=".data here then
      let ds := (here.drop 10).takeWhile Char.isDigit
      if ds.isEmpty then matchBandwidth cs else some (parseDigits ds)
    else matchBandwidth cs

/-- First match of /RESOLUTION=(\d+x\d+)/i: the captured WxH token (with
its original characters) after the case-insensitive literal RESOLUTION=;
the x may be either case. -/
def matchResolutionAttr : List Char → Option (List Char)
  | [] => none
  | c :: cs =>
    let here := c :: cs
    (if ciPrefix "resolution=".data here then
      let after := here.drop 11
      let d1 := after.takeWhile Char.isDigit
      if d1.isEmpty then none
      else
        match after.dropWhile Char.isDigit with
        | x :: r2 =>
          if x = 'x' ∨ x = 'X' then
            let d2 := r2.takeWhile Char.isDigit
            if d2.isEmpty then none else some (d1 ++ x :: d2)
          else none
        | [] => none
    else none).orElse (fun _ => matchResolutionAttr cs)

/-- First match of /(\d{3,4}p|\d+x\d+)/i, with the captured characters as
they occur: at each position the first alternative (a three- or
four-digit run directly followed by p or P) is tried before the second
(a digit run, an x or X, and a further digit run). -/
def matchResHint : List Char → Option (List Char)
  | [] => none
  | c :: cs =>
    let here := c :: cs
    let run := here.takeWhile Char.isDigit
    let after := here.dropWhile Char.isDigit
    (if 3 ≤ run.length ∧ run.length ≤ 4 then
      match after with
      | p :: _ => if p = 'p' ∨ p = 'P' then some (run ++ [p]) else none
      | [] => none
    else none).orElse (fun _ =>
      (if ¬run.isEmpty then
        match after with
        | x :: r2 =>
          if x = 'x' ∨ x = 'X' then
            let d2 := r2.takeWhile Char.isDigit
            if d2.isEmpty then none else some (run ++ x :: d2)
          else none
        | [] => none
      else none).orElse (fun _ => matchResHint cs))

/-- One iteration of the parsePlaylistInfo scan over the running
(bitrateKbps, resolution) state: the raw line is trimmed; a variant
declaration line (#EXT-X-STREAM-INF:) contributes its BANDWIDTH
(converted to kbps by Math.round of division by 1000) and RESOLUTION
attributes; a plain entry line (#EXTINF:) contributes a free-text
resolution hint — an explicit WxH token, or a p-suffixed height mapped
through the shorthand table — and, when no bitrate is known yet but a
resolution is, an estimated bitrate from the resolution table. -/
def processLine (st : ℚ × String) (rawLine : List Char) : ℚ × String :=
  let line := jsTrim rawLine
  let st1 :=
    if "#EXT-X-STREAM-INF:".data.isPrefixOf line then
      let b1 :=
        match matchBandwidth line with
        | some n => ((jsRound ((n : ℚ) / 1000) : ℤ) : ℚ)
        | none => st.1
      let r1 :=
        match matchResolutionAttr line with
        | some cap => String.mk cap
        | none => st.2
      (b1, r1)
    else st
  if "#EXTINF:".data.isPrefixOf line then
    let r2 :=
      match matchResHint line with
      | some cap =>
        if cap.contains 'x' then String.mk cap
        else if cap.contains 'p' then
          let height := parseDigits (removeFirstChar 'p' cap)
          if height = 720 then "1280x720"
          else if height = 1080 then "1920x1080"
          else if height = 480 then "854x480"
          else if height = 360 then "640x360"
          else if height = 240 then "426x240"
          else st1.2
        else st1.2
      | none => st1.2
    let b2 :=
      if st1.1 = 0 ∧ r2 ≠ "unknown" then
        if jsIncludes "1920x1080".data r2.data then (5000 : ℚ)
        else if jsIncludes "1280x720".data r2.data then 2500
        else if jsIncludes "854x480".data r2.data then 1500
        else if jsIncludes "640x360".data r2.data then 800
        else if jsIncludes "426x240".data r2.data then 400
        else 1000
      else st1.1
    (b2, r2)
  else st1

/-- The scan phase of parsePlaylistInfo: fold over content.split('\n')
from bitrate 0 and resolution unknown. -/
def scanPlaylist (playlistContent : String) : ℚ × String :=
  (splitOnChar '\n' playlistContent.data).foldl processLine (0, "unknown")

/-- StreamTester.parsePlaylistInfo: the scan, then the fixed defaults —
assumed bitrate 1000 kbps when none was determined, assumed resolution
1280x720 when none was determined. -/
def parsePlaylistInfo (playlistContent : String) : ℚ × String :=
  let st := scanPlaylist playlistContent
  (if st.1 = 0 then 1000 else st.1,
   if st.2 = "unknown" then "1280x720" else st.2)

/-- StreamTester.testPlaylistStream: a thrown error or timeout of the
GET, or a non-ok (outside 2xx) status, yields failure with zero bitrate
and unknown resolution; an ok response hands the body to
parsePlaylistInfo and succeeds with its extracted values. -/
def testPlaylistStream (getFetch : Except Unit (Nat × String)) :
    Bool × ℚ × String :=
  match getFetch with
  | Except.error _ => (false, 0, "unknown")
  | Except.ok (status, body) =>
    if 200 ≤ status ∧ status < 300 then
      let info := parsePlaylistInfo body
      (true, info.1, info.2)
    else (false, 0, "unknown")

/-- StreamTester.testChannel.  Its try/catch makes it total: every
network outcome, timeout or thrown error is an explicit case of
ProbeWorld and every case returns a StreamTestResult.  A failed
existence check returns failure immediately with zero bitrate and
unknown resolution; a passing check either hands manifest-style urls
(containing .m3u8 or .m3u) to the playlist test or succeeds directly
with zero bitrate and unknown resolution. -/
def testChannel (channel : Channel) (options : Option StreamTestOptions)
    (world : ProbeWorld) : StreamTestResult :=
  let region := (options.bind (fun o => o.region)).getD "local"
  if ¬(checkStreamAvailability world.headFetch) then
    { channelId := channel.id
      status := TestStatus.failure
      responseTimeMs := world.elapsedMs
      bitrateKbps := 0
      resolution := "unknown"
      testedAt := world.testedAt
      region := region }
  else if jsIncludes ".m3u8".data channel.url.data ||
      jsIncludes ".m3u".data channel.url.data then
    let playlistResult := testPlaylistStream world.getFetch
    { channelId := channel.id
      status := if playlistResult.1 then TestStatus.success else TestStatus.failure
      responseTimeMs := world.elapsedMs
      bitrateKbps := playlistResult.2.1
      resolution := playlistResult.2.2
      testedAt := world.testedAt
      region := region }
  else
    { channelId := channel.id
      status := TestStatus.success
      responseTimeMs := world.elapsedMs
      bitrateKbps := 0
      resolution := "unknown"
      testedAt := world.testedAt
      region := region }

/-! ### Claim inputs -/

/-- Single probe result with resolution 1280x720 (height 720). -/
def c1result : StreamTestResult :=
  { channelId := "chn_0000000000000001"
    status := TestStatus.success
    responseTimeMs := 50
    bitrateKbps := 5000
    resolution := "1280x720"
    testedAt := "2024-05-01T00:00:00.000Z"
    region := "local" }

/-- The scorer example of the spec: success at 8000 kbps 1920x1080 from
regionA, a failure (bitrate 0, resolution unknown, probed from regionA),
success at 4000 kbps 1280x720 from regionB. -/
def c3results : List StreamTestResult :=
  [{ channelId := "chn_0000000000000002"
     status := TestStatus.success
     responseTimeMs := 120
     bitrateKbps := 8000
     resolution := "1920x1080"
     testedAt := "2024-05-01T00:00:00.000Z"
     region := "regionA" },
   { channelId := "chn_0000000000000002"
     status := TestStatus.failure
     responseTimeMs := 300
     bitrateKbps := 0
     resolution := "unknown"
     testedAt := "2024-05-01T00:00:01.000Z"
     region := "regionA" },
   { channelId := "chn_0000000000000002"
     status := TestStatus.success
     responseTimeMs := 150
     bitrateKbps := 4000
     resolution := "1280x720"
     testedAt := "2024-05-01T00:00:02.000Z"
     region := "regionB" }]

/-- An unchanged result list scored twice at two clock readings. -/
def c5results : List StreamTestResult :=
  [{ channelId := "chn_0000000000000003"
     status := TestStatus.success
     responseTimeMs := 80
     bitrateKbps := 2000
     resolution := "640x360"
     testedAt := "2024-05-01T00:00:00.000Z"
     region := "local" }]

/-- Three failure results probed from three distinct regions. -/
def c9results : List StreamTestResult :=
  [{ channelId := "chn_0000000000000009", status := TestStatus.failure,
     responseTimeMs := 40, bitrateKbps := 0, resolution := "unknown",
     testedAt := "2024-05-02T00:00:00.000Z", region := "eu" },
   { channelId := "chn_0000000000000009", status := TestStatus.failure,
     responseTimeMs := 41, bitrateKbps := 0, resolution := "unknown",
     testedAt := "2024-05-02T00:00:01.000Z", region := "us" },
   { channelId := "chn_0000000000000009", status := TestStatus.failure,
     responseTimeMs := 42, bitrateKbps := 0, resolution := "unknown",
     testedAt := "2024-05-02T00:00:02.000Z", region := "asia" }]

/-! ### Quality scorer: evaluation lemmas on the example list -/

/-- On the example list the uptime percentage is 200/3. -/
theorem c3_uptime : uptimePercentageOf c3results = 200 / 3 := by
  rw [uptimePercentageOf, if_pos (by decide),
    show successCount c3results = 2 from by decide,
    show c3results.length = 3 from by decide]
  norm_num

/-- On the example list the bitrate average is 4000 kbps. -/
theorem c3_average : average (c3results.map (fun result => result.bitrateKbps)) = 4000 := by
  have hmap : c3results.map (fun result => result.bitrateKbps) = [8000, 0, 4000] := rfl
  rw [hmap, average]
  rw [if_neg (by decide)]
  simp only [List.foldl_cons, List.foldl_nil, List.length_cons, List.length_nil]
  norm_num

/-- On the example list the stability score is 40. -/
theorem c3_stability : stabilityScoreOf c3results = 40 := by
  rw [stabilityScoreOf, if_pos (by decide), c3_average, jsRound]
  norm_num [min_def]

/-- On the example list the video quality score is 100 (the fold's
maximum capture is the width 1920). -/
theorem c3_video : videoQualityScoreOf c3results = 100 := by
  rw [videoQualityScoreOf, if_pos (by decide), if_pos (by decide),
    show maxHeightOf c3results = 1920 from by decide, jsRound]
  norm_num [min_def]

/-- On the example list the geo availability score is 67 (two distinct
regions). -/
theorem c3_geo : geoAvailabilityScoreOf c3results = 67 := by
  rw [geoAvailabilityScoreOf, if_pos (by decide),
    show (distinct (c3results.map (fun result => result.region))).length = 2
      from by decide, jsRound]
  norm_num [min_def]

/-- On the example list the weighted overall score rounds to 67. -/
theorem c3_overall : ((jsRound (calculatedScoreOf c3results) : ℤ) : ℚ) = 67 := by
  rw [calculatedScoreOf, c3_uptime, c3_stability, c3_video, c3_geo, jsRound]
  norm_num

/-! ### Quality scorer claims -/

/-- Claim C1, evaluation at the failing input: for the single result with
resolution 1280x720 the code returns videoQualityScore 100, because the
first capture of (\d+)x\d+ is the width 1280, while the claimed formula
over the vertical component 720 — the one stated by the code's own
comments (extract height; 720 = 67 percent) — gives 67. -/
theorem claim1_code_videoQuality_uses_width :
    (calculateQualityMetrics [c1result] "2024-05-01T00:00:10.000Z").videoQualityScore = 100 ∧
    ((min 100 (jsRound ((720 : ℚ) / 1080 * 100)) : ℤ) : ℚ) = 67 := by
  constructor
  · show videoQualityScoreOf [c1result] = 100
    rw [videoQualityScoreOf, if_pos (by decide), if_pos (by decide),
      show maxHeightOf [c1result] = 1280 from by decide, jsRound]
    norm_num [min_def]
  · rw [jsRound]
    norm_num [min_def]

/-- Claim C3, counterexample: on the spec's example list the scorer's
overallScore is not 62 (0.4 times 200/3 plus 10 plus 20 plus 10.05 is
66.716..., which rounds to 67). -/
theorem claim3_counterexample :
    (calculateQualityMetrics c3results "2024-05-01T00:01:00.000Z").overallScore ≠ 62 := by
  show ((jsRound (calculatedScoreOf c3results) : ℤ) : ℚ) ≠ 62
  rw [c3_overall]
  norm_num

/-- Claim C3 as amended: on the example list the scorer returns
uptimePercentage 200/3 (displayed 66.67), stabilityScore 40,
videoQualityScore 100, geoAvailabilityScore 67 and overallScore 67. -/
theorem claim3_amended_scores :
    (calculateQualityMetrics c3results "2024-05-01T00:01:00.000Z").uptimePercentage = 200 / 3 ∧
    (calculateQualityMetrics c3results "2024-05-01T00:01:00.000Z").stabilityScore = 40 ∧
    (calculateQualityMetrics c3results "2024-05-01T00:01:00.000Z").videoQualityScore = 100 ∧
    (calculateQualityMetrics c3results "2024-05-01T00:01:00.000Z").geoAvailabilityScore = 67 ∧
    (calculateQualityMetrics c3results "2024-05-01T00:01:00.000Z").overallScore = 67 :=
  ⟨c3_uptime, c3_stability, c3_video, c3_geo, c3_overall⟩

/-- Claim C5, counterexample: two runs of the scorer on the identical,
unchanged result list are not bit-identical records when the clock has
advanced between the runs — the calculatedAt field differs. -/
theorem claim5_counterexample :
    calculateQualityMetrics c5results "2024-05-01T00:02:00.000Z" ≠
      calculateQualityMetrics c5results "2024-05-01T00:02:00.001Z" := by
  intro h
  have h2 : ("2024-05-01T00:02:00.000Z" : String) = "2024-05-01T00:02:00.001Z" :=
    congrArg QualityMetrics.calculatedAt h
  exact absurd h2 (by decide)

/-- Claim C5 as amended: two runs of the scorer on an identical,
unchanged result list agree bit-for-bit on every score field
(uptimePercentage, stabilityScore, videoQualityScore,
geoAvailabilityScore, overallScore); only calculatedAt, which records
each run's clock reading, can differ. -/
theorem claim5_amended_scores_deterministic
    (results : List StreamTestResult) (now1 now2 : String) :
    (calculateQualityMetrics results now1).uptimePercentage =
      (calculateQualityMetrics results now2).uptimePercentage ∧
    (calculateQualityMetrics results now1).stabilityScore =
      (calculateQualityMetrics results now2).stabilityScore ∧
    (calculateQualityMetrics results now1).videoQualityScore =
      (calculateQualityMetrics results now2).videoQualityScore ∧
    (calculateQualityMetrics results now1).geoAvailabilityScore =
      (calculateQualityMetrics results now2).geoAvailabilityScore ∧
    (calculateQualityMetrics results now1).overallScore =
      (calculateQualityMetrics results now2).overallScore :=
  ⟨rfl, rfl, rfl, rfl, rfl⟩

/-- Claim C9: regions carried by failure results count — whenever every
result is a failure but at least three distinct region labels occur,
geoAvailabilityScore is 100 while uptimePercentage is 0. -/
theorem claim9_failure_regions_count
    (results : List StreamTestResult) (now : String)
    (hfail : ∀ r ∈ results, r.status = TestStatus.failure)
    (hreg : 3 ≤ (distinct (results.map (fun r => r.region))).length) :
    (calculateQualityMetrics results now).geoAvailabilityScore = 100 ∧
    (calculateQualityMetrics results now).uptimePercentage = 0 := by
  constructor
  · show geoAvailabilityScoreOf results = 100
    rw [geoAvailabilityScoreOf, if_pos (by omega)]
    have h3 : (3 : ℚ) ≤ ((distinct (results.map (fun r => r.region))).length : ℚ) := by
      exact_mod_cast hreg
    have hfl : (100 : ℤ) ≤ jsRound
        (((distinct (results.map (fun r => r.region))).length : ℚ) / 3 * 100) := by
      rw [jsRound, Int.le_floor]
      push_cast
      have h4 : (100 : ℚ) ≤
          ((distinct (List.map (fun r => r.region) results)).length : ℚ) * 100 / 3 := by
        rw [le_div_iff₀ (by norm_num)]
        linarith
      linarith
    rw [min_eq_left hfl]
    norm_num
  · show uptimePercentageOf results = 0
    have h0 : successCount results = 0 := by
      rw [successCount, List.length_eq_zero, List.filter_eq_nil_iff]
      intro a ha
      simp only [decide_eq_true_eq]
      rw [hfail a ha]
      intro hc
      exact TestStatus.noConfusion hc
    rw [uptimePercentageOf, h0]
    split <;> simp

/-- Witness for claim C9: three failures probed from three distinct
regions give geoAvailabilityScore 100 and uptimePercentage 0. -/
theorem claim9_witness :
    (∀ r ∈ c9results, r.status = TestStatus.failure) ∧
    3 ≤ (distinct (c9results.map (fun r => r.region))).length ∧
    (calculateQualityMetrics c9results "2024-05-02T00:01:00.000Z").geoAvailabilityScore = 100 ∧
    (calculateQualityMetrics c9results "2024-05-02T00:01:00.000Z").uptimePercentage = 0 := by
  refine ⟨by decide, by decide, ?_⟩
  have h := claim9_failure_regions_count c9results "2024-05-02T00:01:00.000Z"
    (by decide) (by decide)
  exact ⟨h.1, h.2⟩

set_option maxRecDepth 40000

/-! ### Source reconciler claims -/

/-- Channel A, present both in the store and in the incoming batch. -/
def chA : Channel :=
  { id := "chn_aaaaaaaaaaaaaaaa", name := "Alpha", url := "http://host/alpha.m3u8",
    qualityScore := 0, status := StreamStatus.untested, source := "srcX" }

/-- Channel B, new in the incoming batch. -/
def chB : Channel :=
  { id := "chn_bbbbbbbbbbbbbbbb", name := "Beta", url := "http://host/beta.m3u8",
    qualityScore := 0, status := StreamStatus.untested, source := "srcX" }

/-- Channel C, stored but missing from the incoming batch. -/
def chC : Channel :=
  { id := "chn_cccccccccccccccc", name := "Gamma", url := "http://host/gamma.m3u8",
    qualityScore := 0, status := StreamStatus.active, source := "srcX" }

/-- First reconciliation: incoming batch {A, B} against stored {A, C}. -/
def firstRun : SaveOutcome := saveChannels "srcX" [chA, chB] [chA, chC]

/-- Repeat reconciliation: the same incoming batch {A, B} against the
store produced by the first run, {A, C(inactive), B}. -/
def secondRun : SaveOutcome := saveChannels "srcX" [chA, chB] firstRun.store

/-- Claim C2, counterexample: the repeat reconciliation does not report
removed = 0 — the still-missing channel C, though already inactive, is
counted removed again. -/
theorem claim2_counterexample : secondRun.removed ≠ 0 := by decide

/-- Claim C2 as amended: reconciling incoming {A, B} against stored
{A, C} yields added 1, updated 0, removed 1 with C persisted inactive;
the repeat reconciliation of the same batch against the resulting store
yields added 0, updated 0 and removed 1 — the still-missing C is counted
and re-marked inactive on every run — leaving the store unchanged. -/
theorem claim2_amended_reconciliation :
    firstRun.added = 1 ∧ firstRun.updated = 0 ∧ firstRun.removed = 1 ∧
    firstRun.store.find? (fun c => c.id = chC.id) =
      some { chC with status := StreamStatus.inactive } ∧
    secondRun.added = 0 ∧ secondRun.updated = 0 ∧ secondRun.removed = 1 ∧
    secondRun.store = firstRun.store := by
  refine ⟨by decide, by decide, by decide, by decide, by decide, by decide,
    by decide, by decide⟩

/-! ### Channel identity claim -/

/-- Playlist with two entries whose url lines are equal after trimming
but differ by a leading space. -/
def c4content : String :=
  "#EXTINF:-1,One\nhttp://host/p.m3u8\n#EXTINF:-1,Two\n http://host/p.m3u8"

/-- Claim C4, evaluation at the failing input: both parsed channels
store the identical trimmed url, yet their ids differ, because
createChannelId hashes the raw url line — the id is chn_ plus the first
16 hex characters of the SHA-1 of the untrimmed line, so the leading
space changes the hash. -/
theorem claim4_id_hashes_raw_url :
    (parseM3U c4content "srcY").map (fun c => c.url) =
      ["http://host/p.m3u8", "http://host/p.m3u8"] ∧
    (parseM3U c4content "srcY").map (fun c => c.id) =
      ["chn_79ac7f164b6ed7ce", "chn_346726ec1e0624e2"] ∧
    ("chn_79ac7f164b6ed7ce" : String) ≠ "chn_346726ec1e0624e2" := by
  refine ⟨by decide, by decide, by decide⟩
/-! ### Parser name rule: splitting on the final comma -/

/-- The text following the final comma of a character list, none when no
comma occurs. -/
def textAfterLastComma : List Char → Option (List Char)
  | [] => none
  | c :: cs =>
    match textAfterLastComma cs with
    | some t => some t
    | none => if c = ',' then some cs else none

/-- splitOnChar never returns the empty list of segments. -/
theorem splitOnChar_ne_nil (sep : Char) (cs : List Char) :
    splitOnChar sep cs ≠ [] := by
  cases cs with
  | nil => simp [splitOnChar]
  | cons c cs =>
    rw [splitOnChar]
    split
    · exact List.cons_ne_nil _ _
    · split
      · exact List.cons_ne_nil _ _
      · exact List.cons_ne_nil _ _

/-- There is no text after a final comma exactly when there is no comma. -/
theorem textAfterLastComma_eq_none_iff (cs : List Char) :
    textAfterLastComma cs = none ↔ ',' ∉ cs := by
  induction cs with
  | nil => simp [textAfterLastComma]
  | cons c cs ih =>
    rw [textAfterLastComma]
    cases htac : textAfterLastComma cs with
    | some t =>
      have hmem : ',' ∈ cs := by
        by_contra hnc
        rw [ih.mpr hnc] at htac
        exact Option.noConfusion htac
      simp only [List.mem_cons]
      constructor
      · intro hcontra
        exact Option.noConfusion hcontra
      · intro hnot
        exact absurd (Or.inr hmem) hnot
    | none =>
      have hcs : ',' ∉ cs := ih.mp htac
      by_cases hc : c = ','
      · rw [if_pos hc]
        simp only [List.mem_cons]
        constructor
        · intro hcontra
          exact Option.noConfusion hcontra
        · intro hnot
          exact absurd (Or.inl hc.symm) hnot
      · rw [if_neg hc]
        simp only [List.mem_cons]
        constructor
        · intro _ hm
          rcases hm with hm | hm
          · exact hc hm.symm
          · exact hcs hm
        · intro _
          trivial

/-- A list without a comma splits to the single segment that is the
whole list. -/
theorem splitOnChar_no_comma (cs : List Char) (h : ',' ∉ cs) :
    splitOnChar ',' cs = [cs] := by
  induction cs with
  | nil => rfl
  | cons c cs ih =>
    have hc : ¬(c = ',') := fun hc => h (hc ▸ List.mem_cons_self c cs)
    have hcs : ',' ∉ cs := fun hm => h (List.mem_cons_of_mem c hm)
    rw [splitOnChar, if_neg hc, ih hcs]

/-- A list containing a comma splits into at least two segments. -/
theorem splitOnChar_two_of_mem (cs : List Char) (h : ',' ∈ cs) :
    2 ≤ (splitOnChar ',' cs).length := by
  induction cs with
  | nil => exact absurd h (List.not_mem_nil ',')
  | cons c cs ih =>
    by_cases hc : c = ','
    · rw [splitOnChar, if_pos hc, List.length_cons]
      have h1 : 1 ≤ (splitOnChar ',' cs).length :=
        List.length_pos.mpr (splitOnChar_ne_nil ',' cs)
      omega
    · have hcs : ',' ∈ cs := by
        rcases List.mem_cons.mp h with hm | hm
        · exact absurd hm.symm hc
        · exact hm
      rw [splitOnChar, if_neg hc]
      cases hsplit : splitOnChar ',' cs with
      | nil => exact absurd hsplit (splitOnChar_ne_nil ',' cs)
      | cons s t =>
        have := ih hcs
        rw [hsplit] at this
        simpa using this

/-- The last segment of the comma split (the JavaScript
line.split(',').pop()) is the text after the final comma, and the whole
line when there is no comma. -/
theorem splitOnChar_getLastD (cs : List Char) (d : List Char) :
    (splitOnChar ',' cs).getLastD d = (textAfterLastComma cs).getD cs := by
  induction cs generalizing d with
  | nil => rfl
  | cons c cs ih =>
    by_cases hc : c = ','
    · rw [splitOnChar, if_pos hc, List.getLastD_cons, ih]
      rw [textAfterLastComma]
      cases htac : textAfterLastComma cs with
      | none => simp [if_pos hc]
      | some t => simp
    · rw [splitOnChar, if_neg hc]
      rw [textAfterLastComma]
      cases htac : textAfterLastComma cs with
      | none =>
        have hnc : ',' ∉ cs := (textAfterLastComma_eq_none_iff cs).mp htac
        rw [splitOnChar_no_comma cs hnc]
        simp only [List.getLastD_cons, List.getLastD_nil, if_neg hc]
        rfl
      | some t0 =>
        have hmem : ',' ∈ cs := by
          by_contra hnc
          rw [(textAfterLastComma_eq_none_iff cs).mpr hnc] at htac
          exact Option.noConfusion htac
        cases hsplit : splitOnChar ',' cs with
        | nil => exact absurd hsplit (splitOnChar_ne_nil ',' cs)
        | cons s t =>
          have ht : t ≠ [] := by
            intro htnil
            have h2 := splitOnChar_two_of_mem cs hmem
            rw [hsplit, htnil] at h2
            simp at h2
          have ihs := ih (d := s)
          rw [hsplit, List.getLastD_cons, htac] at ihs
          cases t with
          | nil => exact absurd rfl ht
          | cons t1 ts =>
            rw [List.getLastD_cons] at ihs
            rw [List.getLastD_cons, List.getLastD_cons]
            simp only [Option.getD_some] at ihs ⊢
            exact ihs

/-! ### Parser name claims -/

/-- Playlist whose first entry has a padded name after the final comma
and whose second entry's metadata line contains no comma at all. -/
def c6content : String :=
  "#EXTINF:-1, Padded\nhttp://host/a.ts\n#EXTINF:-1 nocomma\nhttp://host/b.ts"

/-- Claim C6, counterexample: the first channel's emitted name is the
trimmed "Padded", not the exact text " Padded" following the final
comma; and the second metadata line, which contains no comma, still
produces a channel — named by the whole metadata line — instead of
being skipped. -/
theorem claim6_counterexample :
    (parseM3U c6content "srcZ").map (fun c => c.name) =
      ["Padded", "#EXTINF:-1 nocomma"] ∧
    textAfterLastComma "#EXTINF:-1, Padded".data = some " Padded".data ∧
    (" Padded" : String) ≠ "Padded" := by
  refine ⟨by decide, by decide, by decide⟩

/-- Claim C6 as amended: for an entry whose metadata line contains a
comma, the emitted channel's name is the text following the final comma,
trimmed; an entry whose metadata line ends with a comma (empty final
segment) produces no channel; and a metadata line with no comma is not
skipped — the entire metadata line, trimmed, becomes the name. -/
theorem claim6_amended_name_rule (info url : List Char)
    (rest : List (List Char)) (source : String)
    (hinfo : "#EXTINF:".data.isPrefixOf info = true)
    (hurl1 : url ≠ [])
    (hurl2 : "#".data.isPrefixOf url = false) :
    parseLinesGo source (info :: url :: rest) =
      (match textAfterLastComma info with
       | some t =>
         if t.isEmpty then []
         else [buildChannel (String.mk t) (String.mk url) source]
       | none => [buildChannel (String.mk info) (String.mk url) source]) ++
      parseLinesGo source (url :: rest) := by
  have hempty : url.isEmpty = false := by
    cases url with
    | nil => exact absurd rfl hurl1
    | cons a as => rfl
  have hinfone : info ≠ [] := by
    intro h
    rw [h] at hinfo
    exact absurd hinfo (by decide)
  have hinfoempty : info.isEmpty = false := by
    cases info with
    | nil => exact absurd rfl hinfone
    | cons a as => rfl
  rw [parseLinesGo]
  simp only [hinfo, hempty, hurl2, Bool.false_or, Bool.or_self, if_true,
    if_false, ite_true, ite_false]
  rw [splitOnChar_getLastD]
  cases htac : textAfterLastComma info with
  | some t =>
    simp only [Option.getD_some]
    by_cases hte : t.isEmpty
    · simp [hte]
    · simp only [hte, Bool.false_eq_true, if_false, ite_false]
      rw [List.singleton_append]
  | none =>
    simp only [Option.getD_none, hinfoempty, Bool.false_eq_true, if_false,
      ite_false]
    rw [List.singleton_append]

/-- Witness for claim C6 as amended: a two-line entry with a padded name
after the final comma parses to the single channel named by that text
(trimmed inside buildChannel). -/
theorem claim6_witness :
    ("#EXTINF:".data.isPrefixOf "#EXTINF:-1, News Channel".data) = true ∧
    "http://host/n.m3u8".data ≠ [] ∧
    ("#".data.isPrefixOf "http://host/n.m3u8".data) = false ∧
    parseLinesGo "srcZ" ["#EXTINF:-1, News Channel".data,
      "http://host/n.m3u8".data] =
      [buildChannel " News Channel" "http://host/n.m3u8" "srcZ"] := by
  refine ⟨by decide, by decide, by decide, ?_⟩
  have h := claim6_amended_name_rule "#EXTINF:-1, News Channel".data
    "http://host/n.m3u8".data [] "srcZ" (by decide) (by decide) (by decide)
  exact h.trans (by decide)

/-! ### Prober and inspector claims -/

/-- A pattern that extends another is found in a string only where the
shorter one is: substring containment is antitone in the pattern. -/
theorem jsIncludes_of_prefix_pattern (p q s : List Char) (hpq : p <+: q)
    (h : jsIncludes q s = true) : jsIncludes p s = true := by
  induction s with
  | nil =>
    rw [jsIncludes] at h ⊢
    have hq : q = [] := by
      cases q with
      | nil => rfl
      | cons a as => exact Bool.noConfusion h
    subst hq
    have hp : p = [] := List.prefix_nil.mp hpq
    subst hp
    rfl
  | cons c cs ih =>
    rw [jsIncludes] at h ⊢
    rcases Bool.or_eq_true_iff.mp h with h1 | h2
    · have hq : q <+: c :: cs := List.isPrefixOf_iff_prefix.mp h1
      have hp : p <+: c :: cs := hpq.trans hq
      rw [ List.isPrefixOf_iff_prefix.mpr hp]
      rfl
    · rw [ih h2, Bool.or_true]

/-- Claim C7: a failed existence check — any thrown network error,
timeout, or a status outside 2xx/3xx — makes testChannel return an
immediate failure result with zero bitrate and unknown resolution, and
the result does not depend on the manifest GET outcome at all (no
further step is attempted). -/
theorem claim7_failed_head_is_immediate_failure
    (channel : Channel) (options : Option StreamTestOptions)
    (world : ProbeWorld)
    (hhead : checkStreamAvailability world.headFetch = false) :
    testChannel channel options world =
      { channelId := channel.id
        status := TestStatus.failure
        responseTimeMs := world.elapsedMs
        bitrateKbps := 0
        resolution := "unknown"
        testedAt := world.testedAt
        region := (options.bind (fun o => o.region)).getD "local" } ∧
    (∀ g : Except Unit (Nat × String),
      testChannel channel options { world with getFetch := g } =
        testChannel channel options world) := by
  constructor
  · rw [testChannel]
    simp [hhead]
  · intro g
    rw [testChannel, testChannel]
    simp [hhead]

/-- Channel probed in the C7 witness. -/
def c7channel : Channel :=
  { id := "chn_dddddddddddddddd", name := "Delta",
    url := "http://host/delta.m3u8", qualityScore := 0,
    status := StreamStatus.untested, source := "srcW" }

/-- World of the C7 witness: the HEAD check throws, the GET would have
answered — but must not be consulted. -/
def c7world : ProbeWorld :=
  { headFetch := Except.error ()
    getFetch := Except.ok (200, "#EXT-X-STREAM-INF:BANDWIDTH=5000000")
    elapsedMs := 123
    testedAt := "2024-05-03T00:00:00.000Z" }

/-- Witness for claim C7: with the HEAD request throwing, the probe
returns the immediate failure result. -/
theorem claim7_witness :
    checkStreamAvailability c7world.headFetch = false ∧
    testChannel c7channel none c7world =
      { channelId := "chn_dddddddddddddddd"
        status := TestStatus.failure
        responseTimeMs := 123
        bitrateKbps := 0
        resolution := "unknown"
        testedAt := "2024-05-03T00:00:00.000Z"
        region := "local" } := by
  refine ⟨rfl, ?_⟩
  exact (claim7_failed_head_is_immediate_failure c7channel none c7world rfl).1

/-- Claim C10: the prober's manifest classification — the branch guard
url.includes('.m3u8') || url.includes('.m3u') — holds exactly when the
url contains the substring .m3u anywhere (every .m3u8 occurrence
contains a .m3u occurrence); and when the url does not contain .m3u, a
passing existence check alone yields success with bitrate 0 — the
manifest inspection that could produce a nonzero bitrate is never
reached. -/
theorem claim10_manifest_iff_contains_m3u
    (channel : Channel) (options : Option StreamTestOptions)
    (world : ProbeWorld)
    (hhead : checkStreamAvailability world.headFetch = true) :
    ((jsIncludes ".m3u8".data channel.url.data ||
        jsIncludes ".m3u".data channel.url.data) =
      jsIncludes ".m3u".data channel.url.data) ∧
    (jsIncludes ".m3u".data channel.url.data = false →
      (testChannel channel options world).status = TestStatus.success ∧
      (testChannel channel options world).bitrateKbps = 0) := by
  have hmono : jsIncludes ".m3u8".data channel.url.data = true →
      jsIncludes ".m3u".data channel.url.data = true :=
    jsIncludes_of_prefix_pattern ".m3u".data ".m3u8".data channel.url.data
      (by decide)
  constructor
  · cases hm : jsIncludes ".m3u".data channel.url.data with
    | true => rw [Bool.or_true]
    | false =>
      cases h8 : jsIncludes ".m3u8".data channel.url.data with
      | true => rw [hmono h8] at hm; exact Bool.noConfusion hm
      | false => rw [Bool.or_self]
  · intro hno
    have h8 : jsIncludes ".m3u8".data channel.url.data = false := by
      cases h8 : jsIncludes ".m3u8".data channel.url.data with
      | true => rw [hmono h8] at hno; exact Bool.noConfusion hno
      | false => rfl
    rw [testChannel]
    simp [hhead, hno, h8]

/-- Channel of the C10 witness: a reachable url with no .m3u anywhere. -/
def c10channel : Channel :=
  { id := "chn_eeeeeeeeeeeeeeee", name := "Echo",
    url := "http://host/stream.ts", qualityScore := 0,
    status := StreamStatus.untested, source := "srcW" }

/-- World of the C10 witness: the HEAD check returns 200. -/
def c10world : ProbeWorld :=
  { headFetch := Except.ok 200
    getFetch := Except.ok (200, "#EXT-X-STREAM-INF:BANDWIDTH=5000000")
    elapsedMs := 77
    testedAt := "2024-05-03T01:00:00.000Z" }

/-- Witness for claim C10: a reachable non-manifest url yields success
with bitrate 0. -/
theorem claim10_witness :
    checkStreamAvailability c10world.headFetch = true ∧
    jsIncludes ".m3u".data c10channel.url.data = false ∧
    (testChannel c10channel none c10world).status = TestStatus.success ∧
    (testChannel c10channel none c10world).bitrateKbps = 0 := by
  refine ⟨by decide, by decide, ?_⟩
  exact (claim10_manifest_iff_contains_m3u c10channel none c10world
    (by decide)).2 (by decide)

/-- Claim C8: whenever the scan over the manifest body determined
neither a bitrate nor a resolution — it ends in the initial state
(0, unknown) — the inspector returns the fixed assumed defaults
1000 kbps and 1280x720 instead of zero/unknown. -/
theorem claim8_defaults_when_nothing_found (body : String)
    (h : scanPlaylist body = (0, "unknown")) :
    parsePlaylistInfo body = (1000, "1280x720") := by
  rw [parsePlaylistInfo, h]
  simp

/-- Witness for claim C8: a manifest with an entry line carrying no
bandwidth attribute and no resolution hint scans to (0, unknown) and is
reported with the assumed defaults. -/
theorem claim8_witness :
    scanPlaylist "#EXTM3U\n#EXTINF:-1,hello channel\nsegment1.ts" =
      (0, "unknown") ∧
    parsePlaylistInfo "#EXTM3U\n#EXTINF:-1,hello channel\nsegment1.ts" =
      (1000, "1280x720") := by
  have h1 : scanPlaylist "#EXTM3U\n#EXTINF:-1,hello channel\nsegment1.ts" =
      (0, "unknown") := by decide
  exact ⟨h1, claim8_defaults_when_nothing_found _ h1⟩
